import Mathlib

/-!
Shallow embedding of the core of the iq-test-backend service: the assessment
engine (random question selection, answer scoring, IQ derivation in
src/routes/test.js) and the ledger engine (transfer request and admin
settlement in src/routes/transactions.js).  JS numbers on the money/percentage
path are modelled as rationals, DB rows as Lean structures, each `await`ed DB
statement as one atomic step.
-/

namespace IQTest

/-- A row of the `question_options` table (schema.js): questionId, label,
optionText, isCorrect. -/
structure QuestionOptionRow where
  questionId : Nat
  label : String
  optionText : String
  isCorrect : Bool
deriving DecidableEq

/-- One element of the submitted `answers` array in POST /test/submit.  A JSON
object may lack either field (JS `undefined`), hence `Option`. -/
structure AnswerInput where
  questionId : Option Nat
  selectedAnswer : Option String
deriving DecidableEq

/-- One element of `answerResults` in the submit handler, persisted as a
`user_answers` row. -/
structure AnswerResult where
  questionId : Option Nat
  selectedAnswer : Option String
  isCorrect : Bool
deriving DecidableEq

/-- The `correctMap` built in the submit handler: `optionsData.forEach(o => if
(o.isCorrect) correctMap.set(o.questionId, o.label))`.  A later correct option
for the same questionId overwrites an earlier one, as `Map.set` does. -/
def buildCorrectMap (optionsData : List QuestionOptionRow) : Nat → Option String :=
  optionsData.foldl
    (fun m o =>
      if o.isCorrect then fun q => if q = o.questionId then some o.label else m q else m)
    (fun _ => none)

/-- The value of `correctMap.get(answer.questionId)`: `Map.get(undefined)` is
`undefined` in JS. -/
def lookupCorrect (correctMap : Nat → Option String) (a : AnswerInput) : Option String :=
  match a.questionId with
  | some q => correctMap q
  | none => none

/-- The submit handler's `isCorrect = answer.selectedAnswer === correctAnswer`.
JS strict equality on `String`/`undefined` values is equality on
`Option String` (`undefined === undefined` is `true`). -/
def answerIsCorrect (correctMap : Nat → Option String) (a : AnswerInput) : Bool :=
  decide (a.selectedAnswer = lookupCorrect correctMap a)

/-- Round-half-to-even of a rational to an integer. -/
def roundHalfEven (x : ℚ) : ℤ :=
  if x - Int.floor x < 1 / 2 then Int.floor x
  else if 1 / 2 < x - Int.floor x then Int.floor x + 1
  else if Int.floor x % 2 = 0 then Int.floor x else Int.floor x + 1

/-- The exact value of a rational rounded to the nearest IEEE-754 binary64
number (ties to even): a 53-bit significand n with 2^52 ≤ n < 2^53 times a
power of two.  Overflow to infinity and subnormal rounding are not modelled;
every number on the handler's percentage path lies far inside the normal
range. -/
def fl (q : ℚ) : ℚ :=
  if q = 0 then 0
  else
    (if q < 0 then (-1 : ℚ) else 1)
      * (roundHalfEven (|q| / (2 : ℚ) ^ (Int.log 2 |q| - 52)) : ℚ)
      * (2 : ℚ) ^ (Int.log 2 |q| - 52)

/-- JS double division: the exact quotient rounded to binary64. -/
def jsDiv (a b : ℚ) : ℚ := fl (a / b)

/-- JS double multiplication: the exact product rounded to binary64. -/
def jsMul (a b : ℚ) : ℚ := fl (a * b)

/-- JS double subtraction: the exact difference rounded to binary64. -/
def jsSub (a b : ℚ) : ℚ := fl (a - b)

/-- The JS literal `0.6` in the handler: the binary64 value nearest 6/10. -/
def js06 : ℚ := fl (6 / 10)

/-- The piecewise IQ banding computed in the submit handler: each band takes
`Math.floor` of a band-relative offset of the percentage, with every
arithmetic operation performed in binary64 as JS evaluates it (the offsets 90,
75, 50, 25 and the factors 2 and 1 are exact doubles; 0.6 is the binary64
literal `js06`); `Math.floor` on the resulting double is exact. -/
def computeIqScore (percentage : ℚ) : Int :=
  if percentage ≥ 90 then 130 + Int.floor (jsMul (jsSub percentage 90) 2)
  else if percentage ≥ 75 then 115 + Int.floor (jsMul (jsSub percentage 75) 1)
  else if percentage ≥ 50 then 100 + Int.floor (jsMul (jsSub percentage 50) js06)
  else if percentage ≥ 25 then 85 + Int.floor (jsMul (jsSub percentage 25) js06)
  else 70 + Int.floor (jsMul percentage js06)

/-- JS `Math.round` per ECMA-262: the integer closest to the double's exact
value, ties toward positive infinity — floor(q + 1/2) computed exactly on the
double's rational value. -/
def jsRound (q : ℚ) : Int := Int.floor (q + 1 / 2)

/-- The `result` object returned by POST /test/submit, together with the
`user_answers` rows it persists (`answerResults`). -/
structure SubmitOk where
  score : Nat
  totalQuestions : Nat
  iqScore : Int
  percentage : Int
  answerResults : List AnswerResult
deriving DecidableEq

/-- Outcome of the submit handler: HTTP 400 or the scored result. -/
inductive SubmitResult where
  | badRequest : SubmitResult
  | ok : SubmitOk → SubmitResult
deriving DecidableEq

/-- The handler's `answerResults`: one scored row per submitted entry. -/
def scoredResults (optionsData : List QuestionOptionRow) (l : List AnswerInput) :
    List AnswerResult :=
  l.map (fun a =>
    { questionId := a.questionId
      selectedAnswer := a.selectedAnswer
      isCorrect := answerIsCorrect (buildCorrectMap optionsData) a })

/-- The handler's `correctCount` after the scoring loop. -/
def correctCount (optionsData : List QuestionOptionRow) (l : List AnswerInput) : Nat :=
  ((scoredResults optionsData l).filter (fun r => r.isCorrect)).length

/-- The handler's `percentage = (correctCount / totalQuestions) * 100`,
evaluated in binary64: both counters are doubles, the division and the
multiplication each round to binary64. -/
def submitPercentage (optionsData : List QuestionOptionRow) (l : List AnswerInput) : ℚ :=
  jsMul (jsDiv (fl (correctCount optionsData l : ℚ)) (fl (l.length : ℚ))) 100

/-- The POST /test/submit handler.  `answers = none` models a missing or
non-array `answers` field; otherwise the list of submitted entries. -/
def submit (optionsData : List QuestionOptionRow) (answers : Option (List AnswerInput)) :
    SubmitResult :=
  match answers with
  | none => SubmitResult.badRequest
  | some l =>
    if l.isEmpty then SubmitResult.badRequest
    else
      SubmitResult.ok
        { score := correctCount optionsData l
          totalQuestions := l.length
          iqScore := computeIqScore (submitPercentage optionsData l)
          percentage := jsRound (submitPercentage optionsData l)
          answerResults := scoredResults optionsData l }

/-- The `user_answers` rows persisted by a submit call (none on HTTP 400). -/
def persistedAnswerRows : SubmitResult → List AnswerResult
  | SubmitResult.badRequest => []
  | SubmitResult.ok r => r.answerResults

/-- Number of `test_results` rows persisted by a submit call (none on 400). -/
def persistedResultCount : SubmitResult → Nat
  | SubmitResult.badRequest => 0
  | SubmitResult.ok _ => 1

/-- Spec-side correctness of one submitted pair: both fields present and the
selected label equals the stored correct label for that questionId. -/
def specPairCorrect (correctMap : Nat → Option String) (a : AnswerInput) : Bool :=
  match a.questionId, a.selectedAnswer with
  | some q, some sel => decide (correctMap q = some sel)
  | _, _ => false

/-- Scoring rule of one submitted entry as the program applies it: an entry
with a selectedAnswer present is correct exactly when the selected label
equals the stored correct label (the original spec rule); an entry missing
its selectedAnswer is compared as JS undefined, so it is correct exactly when
the correctness lookup resolves to nothing. -/
def specPairScoredJs (correctMap : Nat → Option String) (a : AnswerInput) : Bool :=
  match a.selectedAnswer with
  | some _ => specPairCorrect correctMap a
  | none => decide (lookupCorrect correctMap a = none)

/-- Modelled from the spec: the §4.1 piecewise-linear IQ mapping of the
percentage, stated in the spec's own banding over exact rational
arithmetic. -/
def iqSpecMapping (p : ℚ) : Int :=
  if p ≥ 90 then 130 + Int.floor ((p - 90) * 2)
  else if p ≥ 75 then 115 + Int.floor ((p - 75) * 1)
  else if p ≥ 50 then 100 + Int.floor ((p - 50) * (6 / 10))
  else if p ≥ 25 then 85 + Int.floor ((p - 25) * (6 / 10))
  else 70 + Int.floor (p * (6 / 10))

/-- The §4.1 piecewise banding with every arithmetic operation evaluated in
binary64, the way the program computes it: the amended reading of the IQ
derivation. -/
def iqSpecMappingFl (p : ℚ) : Int :=
  if p ≥ 90 then 130 + Int.floor (jsMul (jsSub p 90) 2)
  else if p ≥ 75 then 115 + Int.floor (jsMul (jsSub p 75) 1)
  else if p ≥ 50 then 100 + Int.floor (jsMul (jsSub p 50) js06)
  else if p ≥ 25 then 85 + Int.floor (jsMul (jsSub p 25) js06)
  else 70 + Int.floor (jsMul p js06)

/-- A row of the `questions` projection selected in GET /test/questions. -/
structure QuestionRow where
  id : Nat
  questionText : String
  imageUrl : Option String
deriving DecidableEq

/-- An option as returned to the taking client: `{label, optionText}` only —
the type has no `isCorrect` field. -/
structure PublicOption where
  label : String
  optionText : String
deriving DecidableEq

/-- A question as returned by GET /test/questions. -/
structure PublicQuestion where
  id : Nat
  questionText : String
  imageUrl : Option String
  options : List PublicOption
deriving DecidableEq

/-- The handler's `{ label: opt.label, optionText: opt.optionText }`. -/
def stripOption (o : QuestionOptionRow) : PublicOption :=
  { label := o.label, optionText := o.optionText }

/-- `optionsMap.get(q.id) || []`: the options of question `qid` in table
order, correctness stripped. -/
def optionsFor (optionsData : List QuestionOptionRow) (qid : Nat) : List PublicOption :=
  (optionsData.filter (fun o => o.questionId = qid)).map stripOption

/-- The GET /test/questions selection: `shuffled.slice(0, 20)` with stripped
options attached.  `shuffled` is the output of the random comparator sort,
which is some permutation of the pool. -/
def selectQuestions (shuffled : List QuestionRow) (optionsData : List QuestionOptionRow) :
    List PublicQuestion :=
  (shuffled.take 20).map (fun q =>
    { id := q.id
      questionText := q.questionText
      imageUrl := q.imageUrl
      options := optionsFor optionsData q.id })

/-- Status enum of the `transactions` table. -/
inductive TxStatus where
  | pending : TxStatus
  | completed : TxStatus
  | failed : TxStatus
deriving DecidableEq

/-- A row of the `transactions` table. -/
structure Txn where
  id : Nat
  senderId : Nat
  receiverId : Nat
  amount : ℚ
  status : TxStatus
deriving DecidableEq

/-- The ledger-relevant database state: `users` as (id, balance) rows, the
`transactions` table, and the autoincrement counter for transaction ids. -/
structure LedgerState where
  users : List (Nat × ℚ)
  txns : List Txn
  nextTxnId : Nat
deriving DecidableEq

/-- Error taxonomy of the transactions routes, as surfaced HTTP statuses:
validation 400, notFound 404, insufficientFunds 400, invalidState 400,
internalErr 500 (an uncaught JS error, e.g. reading a missing sender row). -/
inductive LedgerErr where
  | validation : LedgerErr
  | notFound : LedgerErr
  | insufficientFunds : LedgerErr
  | invalidState : LedgerErr
  | internalErr : LedgerErr
deriving DecidableEq

/-- `SELECT balance FROM users WHERE id = uid` (first matching row). -/
def getBalance (s : LedgerState) (uid : Nat) : Option ℚ :=
  (s.users.find? (fun u => u.1 = uid)).map (fun u => u.2)

/-- `UPDATE users SET balance = balance ± amount WHERE id = uid`: a single
atomic read-modify-write statement at the database. -/
def updBalance (s : LedgerState) (uid : Nat) (f : ℚ → ℚ) : LedgerState :=
  { s with users := s.users.map (fun u => if u.1 = uid then (u.1, f u.2) else u) }

/-- `SELECT * FROM transactions WHERE id = tid` (first matching row). -/
def findTxn (s : LedgerState) (tid : Nat) : Option Txn :=
  s.txns.find? (fun t => t.id = tid)

/-- `UPDATE transactions SET status = st WHERE id = tid`. -/
def setTxnStatus (s : LedgerState) (tid : Nat) (st : TxStatus) : LedgerState :=
  { s with txns := s.txns.map (fun t => if t.id = tid then { t with status := st } else t) }

/-- The POST /transactions/transfer handler.  The express-validator guard
`isFloat({min: 0.01})` rejects any amount below 1/100; then the self-transfer
check, receiver lookup, sender balance check, and the single pending insert. -/
def requestTransfer (s : LedgerState) (senderId receiverId : Nat) (amount : ℚ) :
    Except LedgerErr (LedgerState × Nat) :=
  if amount < 1 / 100 then Except.error LedgerErr.validation
  else if senderId = receiverId then Except.error LedgerErr.validation
  else
    match getBalance s receiverId with
    | none => Except.error LedgerErr.notFound
    | some _ =>
      match getBalance s senderId with
      | none => Except.error LedgerErr.internalErr
      | some senderBalance =>
        if senderBalance < amount then Except.error LedgerErr.insufficientFunds
        else
          Except.ok
            ({ s with
                txns := s.txns ++
                  [{ id := s.nextTxnId
                     senderId := senderId
                     receiverId := receiverId
                     amount := amount
                     status := TxStatus.pending }]
                nextTxnId := s.nextTxnId + 1 },
             s.nextTxnId)

/-- The validated `status` body value of PATCH /transactions/admin/:id/status
(`isIn(["completed", "failed"])`). -/
inductive Outcome where
  | completed : Outcome
  | failed : Outcome
deriving DecidableEq

/-- The PATCH /transactions/admin/:id/status handler, run to completion
without interleaving: read the transaction, reject non-pending, for
`completed` re-check the sender balance then debit, credit, and finally write
the status (the status write also ends the `failed` path). -/
def adminSettle (s : LedgerState) (tid : Nat) (outcome : Outcome) :
    Except LedgerErr LedgerState :=
  match findTxn s tid with
  | none => Except.error LedgerErr.notFound
  | some t =>
    if t.status ≠ TxStatus.pending then Except.error LedgerErr.invalidState
    else
      match outcome with
      | Outcome.failed => Except.ok (setTxnStatus s tid TxStatus.failed)
      | Outcome.completed =>
        match getBalance s t.senderId with
        | none => Except.error LedgerErr.internalErr
        | some senderBalance =>
          if senderBalance < t.amount then Except.error LedgerErr.insufficientFunds
          else
            Except.ok
              (setTxnStatus
                (updBalance (updBalance s t.senderId (fun b => b - t.amount))
                  t.receiverId (fun b => b + t.amount))
                tid TxStatus.completed)

/-- The transaction status written by a settlement with the given outcome. -/
def outcomeStatus : Outcome → TxStatus
  | Outcome.completed => TxStatus.completed
  | Outcome.failed => TxStatus.failed

/-- A core ledger operation issued by some request. -/
inductive Op where
  | transfer : Nat → Nat → ℚ → Op
  | settle : Nat → Outcome → Op
deriving DecidableEq

/-- Apply one operation to the state; a failed operation leaves the state
unchanged (the handler returns an error response without further writes). -/
def applyOp (s : LedgerState) (op : Op) : LedgerState :=
  match op with
  | Op.transfer a b amt =>
    match requestTransfer s a b amt with
    | Except.ok r => r.1
    | Except.error _ => s
  | Op.settle tid oc =>
    match adminSettle s tid oc with
    | Except.ok s2 => s2
    | Except.error _ => s

/-- Run a sequence of core operations. -/
def runOps (s : LedgerState) (ops : List Op) : LedgerState :=
  ops.foldl applyOp s

deriving instance DecidableEq for Except

/-- Program counter of one in-flight `completed` settlement request.  Each
constructor is the point just before one of the handler's `await`ed DB
statements; checks that follow a read with no intervening `await` are folded
into that read's step. -/
inductive SettlePC where
  | start : SettlePC
  | checkBalance : Txn → SettlePC
  | debitSender : Txn → SettlePC
  | creditReceiver : Txn → SettlePC
  | writeStatus : Txn → SettlePC
  | finished : Except LedgerErr Unit → SettlePC
deriving DecidableEq

/-- One atomic DB step of a `completed` settlement of transaction `tid`:
read txn + status check, read balance + solvency check, the sender debit, the
receiver credit, the status write.  Mirrors the handler statement by
statement. -/
def settleStep (tid : Nat) (s : LedgerState) : SettlePC → LedgerState × SettlePC
  | SettlePC.start =>
    match findTxn s tid with
    | none => (s, SettlePC.finished (Except.error LedgerErr.notFound))
    | some t =>
      if t.status ≠ TxStatus.pending then
        (s, SettlePC.finished (Except.error LedgerErr.invalidState))
      else (s, SettlePC.checkBalance t)
  | SettlePC.checkBalance t =>
    match getBalance s t.senderId with
    | none => (s, SettlePC.finished (Except.error LedgerErr.internalErr))
    | some b =>
      if b < t.amount then (s, SettlePC.finished (Except.error LedgerErr.insufficientFunds))
      else (s, SettlePC.debitSender t)
  | SettlePC.debitSender t =>
    (updBalance s t.senderId (fun b => b - t.amount), SettlePC.creditReceiver t)
  | SettlePC.creditReceiver t =>
    (updBalance s t.receiverId (fun b => b + t.amount), SettlePC.writeStatus t)
  | SettlePC.writeStatus _t =>
    (setTxnStatus s tid TxStatus.completed, SettlePC.finished (Except.ok ()))
  | SettlePC.finished r => (s, SettlePC.finished r)

/-- Two concurrent settlement requests on the same transaction: the shared DB
state and each request's program counter. -/
structure TwoSettle where
  state : LedgerState
  pc1 : SettlePC
  pc2 : SettlePC
deriving DecidableEq

/-- Let the scheduled request perform its next atomic DB step. -/
def twoStep (tid : Nat) (c : TwoSettle) (pickFirst : Bool) : TwoSettle :=
  if pickFirst then
    let r := settleStep tid c.state c.pc1
    { state := r.1, pc1 := r.2, pc2 := c.pc2 }
  else
    let r := settleStep tid c.state c.pc2
    { state := r.1, pc1 := c.pc1, pc2 := r.2 }

/-- Run the two requests under an interleaving schedule (`true` = request 1
steps next). -/
def runSchedule (tid : Nat) (sched : List Bool) (c : TwoSettle) : TwoSettle :=
  sched.foldl (twoStep tid) c

/-- Pending transaction of amount 30 from user 1 to user 2. -/
def cexTxn : Txn :=
  { id := 1, senderId := 1, receiverId := 2, amount := 30, status := TxStatus.pending }

/-- Ledger state with sender balance 100, receiver balance 10, and the single
pending transaction `cexTxn`. -/
def cexLedger : LedgerState :=
  { users := [(1, 100), (2, 10)], txns := [cexTxn], nextTxnId := 2 }

/-- Schedule in which both requests read the still-pending transaction before
either writes, then each runs to completion. -/
def cexSchedule : List Bool :=
  [true, false, true, true, true, true, false, false, false, false]

/-- On a pair whose `selectedAnswer` is present, the handler's strict-equality
check agrees with the spec-side per-pair correctness. -/
theorem answerIsCorrect_eq_specPairCorrect (cm : Nat → Option String) (a : AnswerInput)
    (h : a.selectedAnswer.isSome) : answerIsCorrect cm a = specPairCorrect cm a := by
  obtain ⟨sel, hsel⟩ := Option.isSome_iff_exists.mp h
  cases hq : a.questionId with
  | none => simp [answerIsCorrect, specPairCorrect, lookupCorrect, hq, hsel]
  | some q =>
    cases hc : cm q with
    | none => simp [answerIsCorrect, specPairCorrect, lookupCorrect, hq, hsel, hc]
    | some c => simp [answerIsCorrect, specPairCorrect, lookupCorrect, hq, hsel, hc, eq_comm]

/-- Unfolding of the submit handler on a non-empty answer list. -/
theorem submit_eq_ok (optionsData : List QuestionOptionRow) (l : List AnswerInput)
    (hne : l ≠ []) :
    submit optionsData (some l) = SubmitResult.ok
      { score := correctCount optionsData l
        totalQuestions := l.length
        iqScore := computeIqScore (submitPercentage optionsData l)
        percentage := jsRound (submitPercentage optionsData l)
        answerResults := scoredResults optionsData l } := by
  have hEmpty : l.isEmpty = false := by simp [List.isEmpty_iff, hne]
  simp [submit, hEmpty]

/-- Round-half-even sends any rational strictly within 1/2 of an integer to
that integer. -/
theorem roundHalfEven_eq (x : ℚ) (n : ℤ) (h : |x - (n : ℚ)| < 1 / 2) :
    roundHalfEven x = n := by
  rw [abs_sub_lt_iff] at h
  obtain ⟨h1, h2⟩ := h
  by_cases hx : (n : ℚ) ≤ x
  · have hfloor : Int.floor x = n := by
      rw [Int.floor_eq_iff]
      exact ⟨hx, by linarith⟩
    rw [roundHalfEven, hfloor, if_pos (by linarith)]
  · have hfloor : Int.floor x = n - 1 := by
      rw [Int.floor_eq_iff]
      constructor
      · push_cast
        linarith
      · push_cast
        linarith
    rw [roundHalfEven, hfloor, if_neg (by push_cast; linarith),
      if_pos (by push_cast; linarith)]
    omega

/-- Characterization of binary64 rounding at a positive value: if n·2^e has a
53-bit significand, q lies in the binade [2^(e+52), 2^(e+53)), and q is
strictly within half an ulp of n·2^e, then fl q = n·2^e. -/
theorem fl_eq_dyadic (q : ℚ) (n e : ℤ) (hq : 0 < q)
    (hlow : (2 : ℚ) ^ (e + 52) ≤ q) (hhigh : q < (2 : ℚ) ^ (e + 53))
    (hnear : |q / (2 : ℚ) ^ e - (n : ℚ)| < 1 / 2) :
    fl q = (n : ℚ) * (2 : ℚ) ^ e := by
  have hq0 : q ≠ 0 := ne_of_gt hq
  have habs : |q| = q := abs_of_pos hq
  have hlog : Int.log 2 q = e + 52 := by
    have h1 : e + 52 ≤ Int.log 2 q := by
      rw [← Int.zpow_le_iff_le_log (by norm_num) hq]
      simpa using hlow
    have h2 : Int.log 2 q < e + 53 := by
      rw [← Int.lt_zpow_iff_log_lt (by norm_num) hq]
      simpa using hhigh
    omega
  have hexp : e + 52 - 52 = e := by omega
  rw [fl, if_neg hq0, if_neg (not_lt.mpr (le_of_lt hq)), habs, hlog, hexp,
    roundHalfEven_eq (q / (2 : ℚ) ^ e) n hnear, one_mul]

/-- The double 1. -/
theorem fl_one : fl 1 = 1 := by
  have h := fl_eq_dyadic 1 4503599627370496 (-52) (by norm_num) (by norm_num) (by norm_num)
    (by rw [abs_lt]; constructor <;> norm_num)
  rw [h]
  norm_num

/-- The double 3. -/
theorem fl_three : fl 3 = 3 := by
  have h := fl_eq_dyadic 3 6755399441055744 (-51) (by norm_num) (by norm_num) (by norm_num)
    (by rw [abs_lt]; constructor <;> norm_num)
  rw [h]
  norm_num

/-- The double 10. -/
theorem fl_ten : fl 10 = 10 := by
  have h := fl_eq_dyadic 10 5629499534213120 (-49) (by norm_num) (by norm_num) (by norm_num)
    (by rw [abs_lt]; constructor <;> norm_num)
  rw [h]
  norm_num

/-- The double 20. -/
theorem fl_twenty : fl 20 = 20 := by
  have h := fl_eq_dyadic 20 5629499534213120 (-48) (by norm_num) (by norm_num) (by norm_num)
    (by rw [abs_lt]; constructor <;> norm_num)
  rw [h]
  norm_num

/-- The double 100. -/
theorem fl_hundred : fl 100 = 100 := by
  have h := fl_eq_dyadic 100 7036874417766400 (-46) (by norm_num) (by norm_num) (by norm_num)
    (by rw [abs_lt]; constructor <;> norm_num)
  rw [h]
  norm_num

/-- 1/3 rounds to the binary64 value 0.3333333333333333. -/
theorem fl_third : fl (1 / 3) = (6004799503160661 : ℚ) / 2 ^ 54 := by
  have h := fl_eq_dyadic (1 / 3) 6004799503160661 (-54) (by norm_num) (by norm_num)
    (by norm_num) (by rw [abs_lt]; constructor <;> norm_num)
  rw [h]
  norm_num

/-- 6/10 rounds to the binary64 literal 0.6 (slightly below 3/5). -/
theorem fl_point6 : fl (6 / 10) = (5404319552844595 : ℚ) / 2 ^ 53 := by
  have h := fl_eq_dyadic (6 / 10) 5404319552844595 (-53) (by norm_num) (by norm_num)
    (by norm_num) (by rw [abs_lt]; constructor <;> norm_num)
  rw [h]
  norm_num

/-- The exact value of the JS literal 0.6. -/
theorem js06_eq : js06 = (5404319552844595 : ℚ) / 2 ^ 53 := fl_point6

/-- The double product fl(1/3)·100: 33.33333333333333, strictly below 100/3. -/
theorem fl_B : fl ((6004799503160661 : ℚ) / 2 ^ 54 * 100)
    = (4691249611844266 : ℚ) / 2 ^ 47 := by
  have h := fl_eq_dyadic ((6004799503160661 : ℚ) / 2 ^ 54 * 100) 4691249611844266 (-47)
    (by norm_num) (by norm_num) (by norm_num) (by rw [abs_lt]; constructor <;> norm_num)
  rw [h]
  norm_num

/-- The band offset 33.33333333333333 − 25 is exactly representable. -/
theorem fl_C : fl ((4691249611844266 : ℚ) / 2 ^ 47 - 25)
    = (4691249611844264 : ℚ) / 2 ^ 49 := by
  have h := fl_eq_dyadic ((4691249611844266 : ℚ) / 2 ^ 47 - 25) 4691249611844264 (-49)
    (by norm_num) (by norm_num) (by norm_num) (by rw [abs_lt]; constructor <;> norm_num)
  rw [h]
  norm_num

/-- The double product of the band offset with the 0.6 literal:
4.999999999999997, strictly below 5. -/
theorem fl_E : fl ((4691249611844264 : ℚ) / 2 ^ 49 * ((5404319552844595 : ℚ) / 2 ^ 53))
    = (5629499534213117 : ℚ) / 2 ^ 50 := by
  have h := fl_eq_dyadic
    ((4691249611844264 : ℚ) / 2 ^ 49 * ((5404319552844595 : ℚ) / 2 ^ 53))
    5629499534213117 (-50)
    (by norm_num) (by norm_num) (by norm_num) (by rw [abs_lt]; constructor <;> norm_num)
  rw [h]
  norm_num

/-- A full-score single-answer submission computes percentage 100 exactly. -/
theorem percentage_one_of_one : jsMul (jsDiv (fl 1) (fl 1)) 100 = 100 := by
  rw [fl_one, jsDiv, show (1 : ℚ) / 1 = 1 by norm_num, fl_one, jsMul,
    show (1 : ℚ) * 100 = 100 by norm_num, fl_hundred]

/-- At percentage 100 the banding gives 130 + floor(10·2) = 150, exactly even
in binary64. -/
theorem computeIqScore_hundred : computeIqScore 100 = 150 := by
  rw [computeIqScore, if_pos (by norm_num : (100 : ℚ) ≥ 90), jsSub,
    show (100 : ℚ) - 90 = 10 by norm_num, fl_ten, jsMul,
    show (10 : ℚ) * 2 = 20 by norm_num, fl_twenty,
    show (20 : ℚ) = ((20 : ℤ) : ℚ) by norm_num, Int.floor_intCast]
  norm_num

/-- A single entry with no selectedAnswer scores as correct (undefined ===
undefined against the empty correctness lookup), giving a full-score result. -/
theorem submit_single_unanswered (q : Nat) :
    submit [] (some [{ questionId := some q, selectedAnswer := none }])
      = SubmitResult.ok
        { score := 1, totalQuestions := 1, iqScore := 150, percentage := 100,
          answerResults := [{ questionId := some q, selectedAnswer := none,
                              isCorrect := true }] } := by
  have hc : correctCount [] [{ questionId := some q, selectedAnswer := none }] = 1 := by
    simp [correctCount, scoredResults, answerIsCorrect, lookupCorrect, buildCorrectMap,
      List.filter]
  have hp : submitPercentage [] [{ questionId := some q, selectedAnswer := none }] = 100 := by
    rw [submitPercentage, hc]
    norm_num
    exact percentage_one_of_one
  rw [submit_eq_ok [] _ (by simp), hc, hp, computeIqScore_hundred]
  norm_num [jsRound, Int.floor_eq_iff, scoredResults, answerIsCorrect, lookupCorrect,
    buildCorrectMap]

/-- The handler's actual per-entry scoring rule. -/
theorem answerIsCorrect_eq_specPairScoredJs (cm : Nat → Option String) (a : AnswerInput) :
    answerIsCorrect cm a = specPairScoredJs cm a := by
  cases hsel : a.selectedAnswer with
  | some sel =>
    have hs : a.selectedAnswer.isSome := by rw [hsel]; rfl
    rw [answerIsCorrect_eq_specPairCorrect cm a hs]
    simp [specPairScoredJs, hsel]
  | none =>
    cases hlook : lookupCorrect cm a with
    | none => simp [answerIsCorrect, specPairScoredJs, hsel, hlook]
    | some c => simp [answerIsCorrect, specPairScoredJs, hsel, hlook]

/-- The handler's correct count is the number of entries the JS scoring rule
accepts. -/
theorem correctCount_eq_countP_js (optionsData : List QuestionOptionRow)
    (l : List AnswerInput) :
    correctCount optionsData l = l.countP (specPairScoredJs (buildCorrectMap optionsData)) := by
  rw [correctCount, ← List.countP_eq_length_filter, scoredResults, List.countP_map]
  refine List.countP_congr (fun a _ => ?_)
  show (answerIsCorrect (buildCorrectMap optionsData) a = true) ↔ _
  rw [answerIsCorrect_eq_specPairScoredJs]

/-- C2 counterexample: an entry with an unresolvable questionId and a missing
selectedAnswer is scored CORRECT by the program (undefined === undefined),
while the claim's rule makes it incorrect: the submission is accepted with
score 1, not 0. -/
theorem submit_missing_answer_scored_correct :
    submit [] (some [{ questionId := some 7, selectedAnswer := none }])
      = SubmitResult.ok
        { score := 1, totalQuestions := 1, iqScore := 150, percentage := 100,
          answerResults := [{ questionId := some 7, selectedAnswer := none,
                              isCorrect := true }] } ∧
    specPairCorrect (buildCorrectMap [])
      { questionId := some 7, selectedAnswer := none } = false :=
  ⟨submit_single_unanswered 7, rfl⟩

/-- C2 amended: every accepted submission scores each entry carrying a
selectedAnswer correct exactly when the selected label equals the stored
correct label (unknown or undesignated questionIds count incorrect, never an
error), while an entry missing its selectedAnswer is compared as undefined
and so counts correct exactly when its correctness lookup resolves to
nothing; score is the count of entries the rule accepts and totalQuestions is
the length of the submitted list. -/
theorem submit_scoring_js_semantics (optionsData : List QuestionOptionRow)
    (l : List AnswerInput) (hne : l ≠ []) :
    ∃ r, submit optionsData (some l) = SubmitResult.ok r ∧
      r.score = l.countP (specPairScoredJs (buildCorrectMap optionsData)) ∧
      r.totalQuestions = l.length ∧
      r.answerResults = l.map (fun a =>
        { questionId := a.questionId
          selectedAnswer := a.selectedAnswer
          isCorrect := specPairScoredJs (buildCorrectMap optionsData) a }) ∧
      (∀ a : AnswerInput, a.selectedAnswer.isSome →
        specPairScoredJs (buildCorrectMap optionsData) a
          = specPairCorrect (buildCorrectMap optionsData) a) := by
  refine ⟨_, submit_eq_ok optionsData l hne, correctCount_eq_countP_js optionsData l,
    rfl, ?_, ?_⟩
  · show scoredResults optionsData l = _
    exact List.map_congr_left (fun a _ => by rw [answerIsCorrect_eq_specPairScoredJs])
  · intro a ha
    rw [← answerIsCorrect_eq_specPairScoredJs, answerIsCorrect_eq_specPairCorrect _ _ ha]

/-- C3 amended: for every accepted submission, score is at most
totalQuestions, and the returned iqScore and percentage are the piecewise
banding and the rounding of percentage = (score/totalQuestions)*100 evaluated
in binary64 arithmetic exactly as the program computes them; this can differ
from the exact rational mapping by one unit at reachable inputs. -/
theorem submit_iq_piecewise_fl (optionsData : List QuestionOptionRow) (l : List AnswerInput)
    (hne : l ≠ []) :
    ∃ r, submit optionsData (some l) = SubmitResult.ok r ∧
      r.score ≤ r.totalQuestions ∧
      r.totalQuestions = l.length ∧
      r.iqScore = iqSpecMappingFl
        (jsMul (jsDiv (fl (r.score : ℚ)) (fl (r.totalQuestions : ℚ))) 100) ∧
      r.percentage = jsRound
        (jsMul (jsDiv (fl (r.score : ℚ)) (fl (r.totalQuestions : ℚ))) 100) := by
  refine ⟨_, submit_eq_ok optionsData l hne, ?_, rfl, rfl, rfl⟩
  show correctCount optionsData l ≤ l.length
  calc correctCount optionsData l ≤ (scoredResults optionsData l).length :=
      List.length_filter_le _ _
    _ = l.length := List.length_map _ _

/-- C3 amended witness: the theorem applied to a concrete one-answer
submission. -/
theorem submit_iq_piecewise_fl_witness :
    ∃ r, submit [] (some [{ questionId := some 1, selectedAnswer := some "A" }])
        = SubmitResult.ok r ∧
      r.score ≤ r.totalQuestions ∧
      r.totalQuestions
        = [{ questionId := some 1, selectedAnswer := some "A" : AnswerInput }].length ∧
      r.iqScore = iqSpecMappingFl
        (jsMul (jsDiv (fl (r.score : ℚ)) (fl (r.totalQuestions : ℚ))) 100) ∧
      r.percentage = jsRound
        (jsMul (jsDiv (fl (r.score : ℚ)) (fl (r.totalQuestions : ℚ))) 100) :=
  submit_iq_piecewise_fl [] [{ questionId := some 1, selectedAnswer := some "A" }] (by simp)

/-- C3 counterexample: at one correct answer out of three the program returns
iqScore 89 (binary64: fl(fl(1/3)·100) = 33.33333333333333, band offset times
the 0.6 literal gives 4.999999999999997, floored to 4), while the exact
piecewise mapping of 100·1/3 gives 85 + floor(5) = 90. -/
theorem submit_iq_float_diverges :
    submit [{ questionId := 1, label := "A", optionText := "x", isCorrect := true }]
        (some [{ questionId := some 1, selectedAnswer := some "A" },
               { questionId := some 2, selectedAnswer := some "B" },
               { questionId := some 3, selectedAnswer := some "B" }])
      = SubmitResult.ok
        { score := 1, totalQuestions := 3, iqScore := 89, percentage := 33,
          answerResults :=
            [{ questionId := some 1, selectedAnswer := some "A", isCorrect := true },
             { questionId := some 2, selectedAnswer := some "B", isCorrect := false },
             { questionId := some 3, selectedAnswer := some "B", isCorrect := false }] } ∧
    iqSpecMapping (100 * 1 / 3) = 90 := by
  constructor
  · have hc : correctCount
        [{ questionId := 1, label := "A", optionText := "x", isCorrect := true }]
        [{ questionId := some 1, selectedAnswer := some "A" },
         { questionId := some 2, selectedAnswer := some "B" },
         { questionId := some 3, selectedAnswer := some "B" }] = 1 := by
      simp [correctCount, scoredResults, answerIsCorrect, lookupCorrect, buildCorrectMap,
        List.filter]
    have hp : submitPercentage
        [{ questionId := 1, label := "A", optionText := "x", isCorrect := true }]
        [{ questionId := some 1, selectedAnswer := some "A" },
         { questionId := some 2, selectedAnswer := some "B" },
         { questionId := some 3, selectedAnswer := some "B" }]
        = (4691249611844266 : ℚ) / 2 ^ 47 := by
      rw [submitPercentage, hc]
      norm_num
      rw [fl_one, fl_three, jsDiv, fl_third, jsMul, fl_B]
      norm_num
    have hiq : computeIqScore ((4691249611844266 : ℚ) / 2 ^ 47) = 89 := by
      rw [computeIqScore, if_neg (by norm_num), if_neg (by norm_num), if_neg (by norm_num),
        if_pos (by norm_num), jsSub, fl_C, jsMul, js06_eq, fl_E]
      norm_num [Int.floor_eq_iff]
    have hr : jsRound ((4691249611844266 : ℚ) / 2 ^ 47) = 33 := by
      norm_num [jsRound, Int.floor_eq_iff]
    rw [submit_eq_ok _ _ (by simp), hc, hp, hiq, hr]
    simp [scoredResults, answerIsCorrect, lookupCorrect, buildCorrectMap]
  · rw [iqSpecMapping, if_neg (by norm_num), if_neg (by norm_num), if_neg (by norm_num),
      if_pos (by norm_num)]
    norm_num [Int.floor_eq_iff]

/-- C2 amended witness: the theorem applied to a submission mixing an
answered entry with one missing its selectedAnswer, over a concrete option
table. -/
theorem submit_scoring_js_semantics_witness :
    ∃ r, submit [{ questionId := 1, label := "D", optionText := "108", isCorrect := true }]
        (some [{ questionId := some 1, selectedAnswer := some "D" },
               { questionId := some 9, selectedAnswer := none }])
        = SubmitResult.ok r ∧
      r.score = List.countP
        (specPairScoredJs (buildCorrectMap
          [{ questionId := 1, label := "D", optionText := "108", isCorrect := true }]))
        [{ questionId := some 1, selectedAnswer := some "D" },
         { questionId := some 9, selectedAnswer := none }] ∧
      r.totalQuestions = 2 ∧
      r.answerResults =
        List.map (fun a =>
          { questionId := a.questionId
            selectedAnswer := a.selectedAnswer
            isCorrect := specPairScoredJs (buildCorrectMap
              [{ questionId := 1, label := "D", optionText := "108", isCorrect := true }]) a })
        [{ questionId := some 1, selectedAnswer := some "D" },
         { questionId := some 9, selectedAnswer := none }] ∧
      (∀ a : AnswerInput, a.selectedAnswer.isSome →
        specPairScoredJs (buildCorrectMap
            [{ questionId := 1, label := "D", optionText := "108", isCorrect := true }]) a
          = specPairCorrect (buildCorrectMap
            [{ questionId := 1, label := "D", optionText := "108", isCorrect := true }]) a) :=
  submit_scoring_js_semantics
    [{ questionId := 1, label := "D", optionText := "108", isCorrect := true }]
    [{ questionId := some 1, selectedAnswer := some "D" },
     { questionId := some 9, selectedAnswer := none }]
    (by simp)

/-- C5 counterexample: a malformed entry (present questionId, missing
selectedAnswer) is not rejected with HTTP 400: the submission is accepted, the
entry even scores as correct (undefined === undefined), and a result row plus
an answer row are persisted. -/
theorem submit_malformed_accepted :
    submit [] (some [{ questionId := some 1, selectedAnswer := none }])
      = SubmitResult.ok
        { score := 1, totalQuestions := 1, iqScore := 150, percentage := 100,
          answerResults := [{ questionId := some 1, selectedAnswer := none, isCorrect := true }] } ∧
    persistedResultCount (submit [] (some [{ questionId := some 1, selectedAnswer := none }])) = 1 :=
  ⟨submit_single_unanswered 1, by rw [submit_single_unanswered 1]; rfl⟩

/-- C5 amended: POST /test/submit fails with 400 exactly when the answers
field is missing, not an array, or an empty list — and then persists no
test-result row and no answer rows; any non-empty list is accepted, malformed
entries included. -/
theorem submit_rejects_exactly_empty (optionsData : List QuestionOptionRow) :
    submit optionsData none = SubmitResult.badRequest ∧
    submit optionsData (some []) = SubmitResult.badRequest ∧
    persistedAnswerRows (submit optionsData none) = [] ∧
    persistedResultCount (submit optionsData none) = 0 ∧
    persistedAnswerRows (submit optionsData (some [])) = [] ∧
    persistedResultCount (submit optionsData (some [])) = 0 ∧
    ∀ l : List AnswerInput, l ≠ [] → submit optionsData (some l) ≠ SubmitResult.badRequest := by
  refine ⟨rfl, rfl, rfl, rfl, rfl, rfl, fun l hl => ?_⟩
  have hEmpty : l.isEmpty = false := by simp [List.isEmpty_iff, hl]
  simp [submit, hEmpty]

/-- C5 amended witness: a concrete non-empty submission is not rejected. -/
theorem submit_rejects_exactly_empty_witness :
    submit [] (some [{ questionId := some 3, selectedAnswer := some "B" }])
      ≠ SubmitResult.badRequest :=
  (submit_rejects_exactly_empty []).2.2.2.2.2.2
    [{ questionId := some 3, selectedAnswer := some "B" }] (by simp)

/-- C10: each occurrence of a repeated questionId is scored independently
against the same correctness lookup: duplicating an entry adds one to
totalQuestions, adds its own correctness contribution to the score again, and
appends its own answer row, so one question can be counted correct several
times in a single result. -/
theorem submit_duplicate_occurrences (optionsData : List QuestionOptionRow)
    (a : AnswerInput) (l : List AnswerInput) :
    ∃ r r2, submit optionsData (some (a :: l)) = SubmitResult.ok r ∧
      submit optionsData (some (a :: a :: l)) = SubmitResult.ok r2 ∧
      r2.totalQuestions = r.totalQuestions + 1 ∧
      r2.score = r.score + (if answerIsCorrect (buildCorrectMap optionsData) a then 1 else 0) ∧
      r2.answerResults =
        { questionId := a.questionId
          selectedAnswer := a.selectedAnswer
          isCorrect := answerIsCorrect (buildCorrectMap optionsData) a } :: r.answerResults := by
  refine ⟨_, _, submit_eq_ok optionsData (a :: l) (by simp),
    submit_eq_ok optionsData (a :: a :: l) (by simp), by simp, ?_, rfl⟩
  show correctCount optionsData (a :: a :: l) = correctCount optionsData (a :: l) + _
  cases hc : answerIsCorrect (buildCorrectMap optionsData) a <;>
    simp [correctCount, scoredResults, List.filter, hc, Nat.add_comm]

/-- C4: session selection returns no duplicate question ids, never more than
min(20, poolSize) items, the entire pool (as a permutation) when the pool has
fewer than 20 questions, and every returned option is a stripped copy of a
source option row — the returned option type carries no correctness flag. -/
theorem selectQuestions_spec (pool shuffled : List QuestionRow)
    (optionsData : List QuestionOptionRow)
    (hperm : shuffled.Perm pool) (hnd : (pool.map QuestionRow.id).Nodup) :
    ((selectQuestions shuffled optionsData).map PublicQuestion.id).Nodup ∧
    (selectQuestions shuffled optionsData).length = min 20 pool.length ∧
    (pool.length < 20 →
      ((selectQuestions shuffled optionsData).map PublicQuestion.id).Perm
        (pool.map QuestionRow.id)) ∧
    (∀ q ∈ selectQuestions shuffled optionsData, ∀ o ∈ q.options,
      ∃ row, row ∈ optionsData ∧ row.questionId = q.id ∧ o = stripOption row) := by
  have hids : (selectQuestions shuffled optionsData).map PublicQuestion.id
      = (shuffled.map QuestionRow.id).take 20 := by
    rw [selectQuestions, List.map_map, List.map_take]
    rfl
  have hpermIds : (shuffled.map QuestionRow.id).Perm (pool.map QuestionRow.id) :=
    hperm.map _
  refine ⟨?_, ?_, ?_, ?_⟩
  · rw [hids]
    exact (hpermIds.nodup_iff.mpr hnd).sublist (List.take_sublist _ _)
  · rw [selectQuestions, List.length_map, List.length_take, hperm.length_eq]
  · intro h20
    rw [hids, List.take_of_length_le]
    · exact hpermIds
    · rw [List.length_map, hperm.length_eq]
      omega
  · intro q hq o ho
    rw [selectQuestions, List.mem_map] at hq
    obtain ⟨q0, _hq0, rfl⟩ := hq
    have ho2 : o ∈ (optionsData.filter (fun r => r.questionId = q0.id)).map stripOption := ho
    rw [List.mem_map] at ho2
    obtain ⟨row, hrow, rfl⟩ := ho2
    rw [List.mem_filter] at hrow
    exact ⟨row, hrow.1, by simpa using hrow.2, rfl⟩

/-- C4 witness: the theorem applied to a two-question pool presented in
swapped order, with one option row. -/
theorem selectQuestions_spec_witness :
    ((selectQuestions
        [{ id := 2, questionText := "q2", imageUrl := none },
         { id := 1, questionText := "q1", imageUrl := none }]
        [{ questionId := 1, label := "A", optionText := "42", isCorrect := true }]).map
      PublicQuestion.id).Nodup ∧
    (selectQuestions
        [{ id := 2, questionText := "q2", imageUrl := none },
         { id := 1, questionText := "q1", imageUrl := none }]
        [{ questionId := 1, label := "A", optionText := "42", isCorrect := true }]).length
      = min 20 ([{ id := 1, questionText := "q1", imageUrl := none },
                 { id := 2, questionText := "q2", imageUrl := none }] : List QuestionRow).length ∧
    (([{ id := 1, questionText := "q1", imageUrl := none },
       { id := 2, questionText := "q2", imageUrl := none }] : List QuestionRow).length < 20 →
      ((selectQuestions
          [{ id := 2, questionText := "q2", imageUrl := none },
           { id := 1, questionText := "q1", imageUrl := none }]
          [{ questionId := 1, label := "A", optionText := "42", isCorrect := true }]).map
        PublicQuestion.id).Perm
        (([{ id := 1, questionText := "q1", imageUrl := none },
           { id := 2, questionText := "q2", imageUrl := none }] : List QuestionRow).map
          QuestionRow.id)) ∧
    (∀ q ∈ selectQuestions
        [{ id := 2, questionText := "q2", imageUrl := none },
         { id := 1, questionText := "q1", imageUrl := none }]
        [{ questionId := 1, label := "A", optionText := "42", isCorrect := true }],
      ∀ o ∈ q.options,
      ∃ row, row ∈ [{ questionId := 1, label := "A", optionText := "42", isCorrect := true :
          QuestionOptionRow }] ∧ row.questionId = q.id ∧ o = stripOption row) :=
  selectQuestions_spec
    [{ id := 1, questionText := "q1", imageUrl := none },
     { id := 2, questionText := "q2", imageUrl := none }]
    [{ id := 2, questionText := "q2", imageUrl := none },
     { id := 1, questionText := "q1", imageUrl := none }]
    [{ questionId := 1, label := "A", optionText := "42", isCorrect := true }]
    (List.Perm.swap _ _ _) (by simp)

/-- Finding in a mapped list when the mapping preserves the predicate. -/
theorem find?_map_pres {α : Type} (g : α → α) (p : α → Bool) (hg : ∀ a, p (g a) = p a)
    (l : List α) : (l.map g).find? p = (l.find? p).map g := by
  induction l with
  | nil => rfl
  | cons hd tl ih =>
    cases hpd : p hd with
    | true =>
      rw [List.map_cons, List.find?_cons_of_pos _ (by rw [hg]; exact hpd),
        List.find?_cons_of_pos _ hpd, Option.map_some']
    | false =>
      rw [List.map_cons, List.find?_cons_of_neg _ (by simp [hg, hpd]),
        List.find?_cons_of_neg _ (by simp [hpd]), ih]

/-- Finding in a mapped list when the mapping preserves the predicate and
fixes every element satisfying it. -/
theorem find?_map_fix {α : Type} (g : α → α) (p : α → Bool) (hg : ∀ a, p (g a) = p a)
    (hfix : ∀ a, p a = true → g a = a) (l : List α) :
    (l.map g).find? p = l.find? p := by
  rw [find?_map_pres g p hg l]
  cases hf : l.find? p with
  | none => rfl
  | some a => rw [Option.map_some', hfix a (List.find?_some hf)]

/-- Debiting or crediting a user changes exactly that user's first row. -/
theorem getBalance_updBalance_self (s : LedgerState) (uid : Nat) (f : ℚ → ℚ) :
    getBalance (updBalance s uid f) uid = (getBalance s uid).map f := by
  rw [getBalance, getBalance, updBalance]
  show ((s.users.map _).find? _).map _ = _
  rw [find?_map_pres _ _ (fun a => by by_cases h : a.1 = uid <;> simp [h]) s.users]
  cases hf : s.users.find? (fun u => u.1 = uid) with
  | none => rfl
  | some u =>
    have hu : u.1 = uid := by simpa using List.find?_some hf
    simp [hu]

/-- Debiting or crediting a user leaves every other user's balance unchanged. -/
theorem getBalance_updBalance_ne (s : LedgerState) (uid vid : Nat) (f : ℚ → ℚ)
    (h : vid ≠ uid) : getBalance (updBalance s uid f) vid = getBalance s vid := by
  rw [getBalance, getBalance, updBalance]
  show ((s.users.map _).find? _).map _ = _
  rw [find?_map_fix _ _ (fun a => by by_cases ha : a.1 = uid <;> simp [ha])
    (fun a ha => by
      have : a.1 = vid := by simpa using ha
      simp [this, h]) s.users]

/-- A transaction status write does not touch user balances. -/
theorem getBalance_setTxnStatus (s : LedgerState) (tid : Nat) (st : TxStatus) (uid : Nat) :
    getBalance (setTxnStatus s tid st) uid = getBalance s uid := rfl

/-- A balance update does not touch the transactions table. -/
theorem findTxn_updBalance (s : LedgerState) (uid : Nat) (f : ℚ → ℚ) (tid : Nat) :
    findTxn (updBalance s uid f) tid = findTxn s tid := rfl

/-- The status write rewrites the status of the looked-up transaction. -/
theorem findTxn_setTxnStatus_self (s : LedgerState) (tid : Nat) (st : TxStatus) :
    findTxn (setTxnStatus s tid st) tid
      = (findTxn s tid).map (fun t => { t with status := st }) := by
  rw [findTxn, findTxn, setTxnStatus]
  show (s.txns.map _).find? _ = _
  rw [find?_map_pres _ _ (fun a => by by_cases h : a.id = tid <;> simp [h]) s.txns]
  cases hf : s.txns.find? (fun t => t.id = tid) with
  | none => rfl
  | some t =>
    have ht : t.id = tid := by simpa using List.find?_some hf
    simp [ht]

/-- The status write leaves every other transaction unchanged. -/
theorem findTxn_setTxnStatus_ne (s : LedgerState) (tid : Nat) (st : TxStatus) (tid2 : Nat)
    (h : tid2 ≠ tid) : findTxn (setTxnStatus s tid st) tid2 = findTxn s tid2 := by
  rw [findTxn, findTxn, setTxnStatus]
  show (s.txns.map _).find? _ = _
  rw [find?_map_fix _ _ (fun a => by by_cases ha : a.id = tid <;> simp [ha])
    (fun a ha => by
      have : a.id = tid2 := by simpa using ha
      simp [this, h]) s.txns]

/-- Inversion of a successful transfer request: the only write is the single
pending transaction row. -/
theorem requestTransfer_ok_inv {s : LedgerState} {a b : Nat} {A : ℚ} {s2 : LedgerState}
    {n : Nat} (h : requestTransfer s a b A = Except.ok (s2, n)) :
    s2.users = s.users ∧ s2.nextTxnId = s.nextTxnId + 1 ∧ n = s.nextTxnId ∧
      s2.txns = s.txns ++
        [{ id := s.nextTxnId, senderId := a, receiverId := b, amount := A,
           status := TxStatus.pending }] := by
  rw [requestTransfer] at h
  split at h
  · exact absurd h (by simp)
  split at h
  · exact absurd h (by simp)
  split at h
  · exact absurd h (by simp)
  split at h
  · exact absurd h (by simp)
  split at h
  · exact absurd h (by simp)
  · obtain ⟨rfl, rfl⟩ : _ ∧ _ := by
      have := Except.ok.inj h
      exact ⟨congrArg Prod.fst this, congrArg Prod.snd this⟩
    exact ⟨rfl, rfl, rfl, rfl⟩

/-- C6: requestTransfer rejects a non-positive amount and a self-transfer with
ValidationError, a missing receiver with NotFoundError, and an insufficient
sender balance with InsufficientFundsError; on success it appends exactly one
pending transaction row and mutates no balance. -/
theorem requestTransfer_spec :
    (∀ (s : LedgerState) (a b : Nat) (A : ℚ), A ≤ 0 →
      requestTransfer s a b A = Except.error LedgerErr.validation) ∧
    (∀ (s : LedgerState) (a : Nat) (A : ℚ),
      requestTransfer s a a A = Except.error LedgerErr.validation) ∧
    (∀ (s : LedgerState) (a b : Nat) (A : ℚ), 1 / 100 ≤ A → a ≠ b →
      getBalance s b = none →
      requestTransfer s a b A = Except.error LedgerErr.notFound) ∧
    (∀ (s : LedgerState) (a b : Nat) (A : ℚ) (rb sb : ℚ), 1 / 100 ≤ A → a ≠ b →
      getBalance s b = some rb → getBalance s a = some sb → sb < A →
      requestTransfer s a b A = Except.error LedgerErr.insufficientFunds) ∧
    (∀ (s : LedgerState) (a b : Nat) (A : ℚ) (s2 : LedgerState) (n : Nat),
      requestTransfer s a b A = Except.ok (s2, n) →
      s2.users = s.users ∧ s2.txns = s.txns ++
        [{ id := s.nextTxnId, senderId := a, receiverId := b, amount := A,
           status := TxStatus.pending }]) := by
  refine ⟨?_, ?_, ?_, ?_, ?_⟩
  · intro s a b A hA
    have : A < 1 / 100 := lt_of_le_of_lt hA (by norm_num)
    rw [requestTransfer, if_pos this]
  · intro s a A
    rw [requestTransfer]
    by_cases hA : A < 1 / 100
    · rw [if_pos hA]
    · rw [if_neg hA, if_pos rfl]
  · intro s a b A hA hab hb
    rw [requestTransfer, if_neg (by exact not_lt.mpr hA), if_neg hab, hb]
  · intro s a b A rb sb hA hab hb ha hlt
    rw [requestTransfer, if_neg (by exact not_lt.mpr hA), if_neg hab, hb, ha]
    simp [hlt]
  · intro s a b A s2 n h
    obtain ⟨h1, _, _, h4⟩ := requestTransfer_ok_inv h
    exact ⟨h1, h4⟩

/-- C6 witness: the five branches of the theorem exercised on concrete ledger
states. -/
theorem requestTransfer_spec_witness :
    requestTransfer { users := [(1, 50), (2, 5)], txns := [], nextTxnId := 1 } 1 2 0
      = Except.error LedgerErr.validation ∧
    requestTransfer { users := [(1, 50), (2, 5)], txns := [], nextTxnId := 1 } 1 1 10
      = Except.error LedgerErr.validation ∧
    requestTransfer { users := [(1, 50), (2, 5)], txns := [], nextTxnId := 1 } 1 3 10
      = Except.error LedgerErr.notFound ∧
    requestTransfer { users := [(1, 50), (2, 5)], txns := [], nextTxnId := 1 } 2 1 10
      = Except.error LedgerErr.insufficientFunds ∧
    ({ users := [(1, 50), (2, 5)], txns :=
        [{ id := 1, senderId := 1, receiverId := 2, amount := 10,
           status := TxStatus.pending }], nextTxnId := 2 } : LedgerState).users
      = ({ users := [(1, 50), (2, 5)], txns := [], nextTxnId := 1 } : LedgerState).users ∧
    ({ users := [(1, 50), (2, 5)], txns :=
        [{ id := 1, senderId := 1, receiverId := 2, amount := 10,
           status := TxStatus.pending }], nextTxnId := 2 } : LedgerState).txns
      = ({ users := [(1, 50), (2, 5)], txns := [], nextTxnId := 1 } : LedgerState).txns ++
        [{ id := 1, senderId := 1, receiverId := 2, amount := 10,
           status := TxStatus.pending }] := by
  refine ⟨?_, ?_, ?_, ?_, ?_⟩
  · exact requestTransfer_spec.1 _ 1 2 0 (by norm_num)
  · exact requestTransfer_spec.2.1 _ 1 10
  · refine requestTransfer_spec.2.2.1 _ 1 3 10 (by norm_num) (by decide) ?_
    simp [getBalance, List.find?]
  · refine requestTransfer_spec.2.2.2.1 _ 2 1 10 50 5 (by norm_num) (by decide) ?_ ?_ ?_
    · simp [getBalance, List.find?]
    · simp [getBalance, List.find?]
    · norm_num
  · exact requestTransfer_spec.2.2.2.2 _ 1 2 10 _ 1 (by
      rw [requestTransfer, if_neg (by norm_num), if_neg (by decide)]
      simp [getBalance, List.find?]
      norm_num)

/-- Inversion of a successful settlement: the transaction was found pending,
and the result is a status write over a state whose transactions table is
unchanged (balances may differ). -/
theorem adminSettle_ok_inv {s : LedgerState} {tid : Nat} {oc : Outcome} {s2 : LedgerState}
    (h : adminSettle s tid oc = Except.ok s2) :
    ∃ t u, findTxn s tid = some t ∧ t.status = TxStatus.pending ∧ u.txns = s.txns ∧
      s2 = setTxnStatus u tid (outcomeStatus oc) := by
  rw [adminSettle] at h
  split at h
  · exact absurd h (by simp)
  rename_i t hf
  split at h
  · exact absurd h (by simp)
  rename_i hstat
  have hpend : t.status = TxStatus.pending := not_not.mp hstat
  split at h
  · exact ⟨t, s, hf, hpend, rfl, (Except.ok.inj h).symm⟩
  · split at h
    · exact absurd h (by simp)
    split at h
    · exact absurd h (by simp)
    exact ⟨t, updBalance (updBalance s t.senderId (fun b => b - t.amount))
      t.receiverId (fun b => b + t.amount), hf, hpend, rfl, (Except.ok.inj h).symm⟩

/-- One core operation cannot change a transaction that is already terminal:
the first row with a given id, once non-pending, survives any operation. -/
theorem findTxn_applyOp_term (s : LedgerState) (op : Op) (tid : Nat) (t : Txn)
    (ht : findTxn s tid = some t) (hterm : t.status ≠ TxStatus.pending) :
    findTxn (applyOp s op) tid = some t := by
  cases op with
  | transfer a b amt =>
    cases hr : requestTransfer s a b amt with
    | error e => simp [applyOp, hr, ht]
    | ok r =>
      obtain ⟨_, _, _, htx⟩ := @requestTransfer_ok_inv s a b amt r.1 r.2 (by rw [hr])
      simp only [applyOp, hr]
      rw [findTxn] at ht ⊢
      rw [htx, List.find?_append, ht]
      rfl
  | settle tid2 oc =>
    cases hr : adminSettle s tid2 oc with
    | error e => simp [applyOp, hr, ht]
    | ok s2 =>
      obtain ⟨t2, u, hf2, hp2, hu, rfl⟩ := adminSettle_ok_inv hr
      simp only [applyOp, hr]
      by_cases heq : tid = tid2
      · subst heq
        have ht2 : t2 = t := Option.some.inj (hf2.symm.trans ht)
        exact absurd (ht2 ▸ hp2) hterm
      · rw [findTxn_setTxnStatus_ne _ _ _ _ heq, findTxn, hu]
        exact ht

/-- A terminal transaction stays untouched across any run of operations. -/
theorem findTxn_runOps_term (ops : List Op) : ∀ (s : LedgerState) (tid : Nat) (t : Txn),
    findTxn s tid = some t → t.status ≠ TxStatus.pending →
    findTxn (runOps s ops) tid = some t := by
  induction ops with
  | nil => intro s tid t ht _; exact ht
  | cons op ops ih =>
    intro s tid t ht hterm
    exact ih (applyOp s op) tid t (findTxn_applyOp_term s op tid t ht hterm) hterm

/-- C7: settlement of a missing transaction fails with NotFoundError and of a
non-pending one with InvalidStateError, both leaving the state (status and all
balances) untouched; consequently over every reachable sequence of core
operations a transaction never leaves a terminal status. -/
theorem txn_status_one_way :
    (∀ (s : LedgerState) (tid : Nat) (oc : Outcome), findTxn s tid = none →
      adminSettle s tid oc = Except.error LedgerErr.notFound ∧
      applyOp s (Op.settle tid oc) = s) ∧
    (∀ (s : LedgerState) (tid : Nat) (oc : Outcome) (t : Txn), findTxn s tid = some t →
      t.status ≠ TxStatus.pending →
      adminSettle s tid oc = Except.error LedgerErr.invalidState ∧
      applyOp s (Op.settle tid oc) = s) ∧
    (∀ (s : LedgerState) (ops : List Op) (tid : Nat) (t : Txn),
      findTxn s tid = some t → t.status ≠ TxStatus.pending →
      findTxn (runOps s ops) tid = some t) := by
  refine ⟨?_, ?_, ?_⟩
  · intro s tid oc h
    have ha : adminSettle s tid oc = Except.error LedgerErr.notFound := by
      rw [adminSettle, h]
    exact ⟨ha, by simp [applyOp, ha]⟩
  · intro s tid oc t ht hterm
    have ha : adminSettle s tid oc = Except.error LedgerErr.invalidState := by
      rw [adminSettle, ht]
      simp [hterm]
    exact ⟨ha, by simp [applyOp, ha]⟩
  · intro s ops tid t ht hterm
    exact findTxn_runOps_term ops s tid t ht hterm

/-- C7 witness: the three conjuncts on concrete states — a missing id, a
completed transaction, and a two-operation run over the latter. -/
theorem txn_status_one_way_witness :
    (adminSettle cexLedger 5 Outcome.completed = Except.error LedgerErr.notFound ∧
      applyOp cexLedger (Op.settle 5 Outcome.completed) = cexLedger) ∧
    (adminSettle
        { users := [(1, 100), (2, 10)],
          txns := [{ cexTxn with status := TxStatus.completed }], nextTxnId := 2 }
        1 Outcome.failed = Except.error LedgerErr.invalidState ∧
      applyOp
        { users := [(1, 100), (2, 10)],
          txns := [{ cexTxn with status := TxStatus.completed }], nextTxnId := 2 }
        (Op.settle 1 Outcome.failed)
        = { users := [(1, 100), (2, 10)],
            txns := [{ cexTxn with status := TxStatus.completed }], nextTxnId := 2 }) ∧
    findTxn
      (runOps
        { users := [(1, 100), (2, 10)],
          txns := [{ cexTxn with status := TxStatus.completed }], nextTxnId := 2 }
        [Op.transfer 1 2 5, Op.settle 1 Outcome.completed]) 1
      = some { cexTxn with status := TxStatus.completed } :=
  ⟨txn_status_one_way.1 cexLedger 5 Outcome.completed rfl,
   txn_status_one_way.2.1 _ 1 Outcome.failed _ rfl (by decide),
   txn_status_one_way.2.2 _ [Op.transfer 1 2 5, Op.settle 1 Outcome.completed] 1 _
     rfl (by decide)⟩

/-- C8: a successful completed settlement debits the sender by the amount,
credits the receiver by the amount, conserves the sum of the two balances, and
marks the transaction completed; a failed settlement only marks it failed and
changes no balance. -/
theorem adminSettle_balance_effects (s : LedgerState) (tid : Nat) (t : Txn) (sb rb : ℚ)
    (ht : findTxn s tid = some t) (hp : t.status = TxStatus.pending)
    (hne : t.senderId ≠ t.receiverId)
    (hsb : getBalance s t.senderId = some sb) (hrb : getBalance s t.receiverId = some rb)
    (hsuf : t.amount ≤ sb) :
    (∃ s2, adminSettle s tid Outcome.completed = Except.ok s2 ∧
      getBalance s2 t.senderId = some (sb - t.amount) ∧
      getBalance s2 t.receiverId = some (rb + t.amount) ∧
      (sb - t.amount) + (rb + t.amount) = sb + rb ∧
      findTxn s2 tid = some { t with status := TxStatus.completed }) ∧
    (adminSettle s tid Outcome.failed = Except.ok (setTxnStatus s tid TxStatus.failed) ∧
      (∀ uid, getBalance (setTxnStatus s tid TxStatus.failed) uid = getBalance s uid) ∧
      findTxn (setTxnStatus s tid TxStatus.failed) tid
        = some { t with status := TxStatus.failed }) := by
  constructor
  · refine ⟨setTxnStatus
        (updBalance (updBalance s t.senderId (fun b => b - t.amount))
          t.receiverId (fun b => b + t.amount)) tid TxStatus.completed,
      ?_, ?_, ?_, by ring, ?_⟩
    · rw [adminSettle, ht]
      simp [hp, hsb, not_lt.mpr hsuf]
    · rw [getBalance_setTxnStatus, getBalance_updBalance_ne _ _ _ _ hne,
        getBalance_updBalance_self, hsb, Option.map_some']
    · rw [getBalance_setTxnStatus, getBalance_updBalance_self,
        getBalance_updBalance_ne _ _ _ _ (Ne.symm hne), hrb, Option.map_some']
    · rw [findTxn_setTxnStatus_self, findTxn_updBalance, findTxn_updBalance, ht,
        Option.map_some']
  · refine ⟨?_, fun uid => rfl, ?_⟩
    · rw [adminSettle, ht]
      simp [hp]
    · rw [findTxn_setTxnStatus_self, ht, Option.map_some']

/-- C8 witness: the theorem on the concrete ledger with balances 100 and 10
and a pending transaction of amount 30. -/
theorem adminSettle_balance_effects_witness :
    (∃ s2, adminSettle cexLedger 1 Outcome.completed = Except.ok s2 ∧
      getBalance s2 cexTxn.senderId = some (100 - cexTxn.amount) ∧
      getBalance s2 cexTxn.receiverId = some (10 + cexTxn.amount) ∧
      (100 - cexTxn.amount) + (10 + cexTxn.amount) = 100 + 10 ∧
      findTxn s2 1 = some { cexTxn with status := TxStatus.completed }) ∧
    (adminSettle cexLedger 1 Outcome.failed
        = Except.ok (setTxnStatus cexLedger 1 TxStatus.failed) ∧
      (∀ uid, getBalance (setTxnStatus cexLedger 1 TxStatus.failed) uid
        = getBalance cexLedger uid) ∧
      findTxn (setTxnStatus cexLedger 1 TxStatus.failed) 1
        = some { cexTxn with status := TxStatus.failed }) :=
  adminSettle_balance_effects cexLedger 1 cexTxn 100 10 rfl rfl (by decide) rfl rfl
    (by rw [cexTxn]; norm_num)

/-- C9: a completed settlement attempt on a pending transaction whose sender
balance has dropped below the amount fails with InsufficientFundsError and
changes nothing: the transaction stays pending and both balances are
untouched. -/
theorem adminSettle_insufficient_leaves_pending (s : LedgerState) (tid : Nat) (t : Txn)
    (sb : ℚ) (ht : findTxn s tid = some t) (hp : t.status = TxStatus.pending)
    (hsb : getBalance s t.senderId = some sb) (hlt : sb < t.amount) :
    adminSettle s tid Outcome.completed = Except.error LedgerErr.insufficientFunds ∧
    applyOp s (Op.settle tid Outcome.completed) = s := by
  have h : adminSettle s tid Outcome.completed
      = Except.error LedgerErr.insufficientFunds := by
    rw [adminSettle, ht]
    simp [hp, hsb, hlt]
  exact ⟨h, by simp [applyOp, h]⟩

/-- C9 witness: the theorem on a ledger whose sender balance 5 is below the
pending amount 30. -/
theorem adminSettle_insufficient_leaves_pending_witness :
    adminSettle { users := [(1, 5), (2, 10)], txns := [cexTxn], nextTxnId := 2 } 1
        Outcome.completed = Except.error LedgerErr.insufficientFunds ∧
    applyOp { users := [(1, 5), (2, 10)], txns := [cexTxn], nextTxnId := 2 }
        (Op.settle 1 Outcome.completed)
      = { users := [(1, 5), (2, 10)], txns := [cexTxn], nextTxnId := 2 } :=
  adminSettle_insufficient_leaves_pending _ 1 cexTxn 5 rfl rfl rfl
    (by rw [cexTxn]; norm_num)

/-- C1: the settlement handler is not atomic.  With sender balance 100 and a
pending transaction of amount 30, two concurrent completed-settlement requests
that both read the still-pending transaction before either writes both pass
the status and solvency checks, both report success, and the sender ends at
100 − 2·30 = 40 instead of 70: the balances move by the amount twice, so the
debit, credit and status transition are not one indivisible unit. -/
theorem adminSettle_not_atomic_double_settlement :
    (runSchedule 1 cexSchedule
        { state := cexLedger, pc1 := SettlePC.start, pc2 := SettlePC.start }).pc1
      = SettlePC.finished (Except.ok ()) ∧
    (runSchedule 1 cexSchedule
        { state := cexLedger, pc1 := SettlePC.start, pc2 := SettlePC.start }).pc2
      = SettlePC.finished (Except.ok ()) ∧
    getBalance (runSchedule 1 cexSchedule
        { state := cexLedger, pc1 := SettlePC.start, pc2 := SettlePC.start }).state 1
      = some 40 ∧
    getBalance (runSchedule 1 cexSchedule
        { state := cexLedger, pc1 := SettlePC.start, pc2 := SettlePC.start }).state 2
      = some 70 ∧
    findTxn (runSchedule 1 cexSchedule
        { state := cexLedger, pc1 := SettlePC.start, pc2 := SettlePC.start }).state 1
      = some { cexTxn with status := TxStatus.completed } ∧
    getBalance cexLedger 1 = some 100 ∧ cexTxn.amount = 30 ∧ (40 : ℚ) ≠ 100 - 30 := by
  refine ⟨?_, ?_, ?_, ?_, ?_, rfl, rfl, by norm_num⟩ <;>
    (simp [runSchedule, cexSchedule, twoStep, settleStep, cexLedger, cexTxn, findTxn,
      getBalance, updBalance, setTxnStatus, List.find?]; norm_num)

end IQTest
